import Mathlib

/-!
Verification of the telemetry-adaptive HDR frame-processing engine
(`src/core/processors/hdr_processor.py` together with the static mapping
tables of `src/config/settings.py`).

Numeric convention: the Python code computes in IEEE float64; this
development embeds that arithmetic as exact rational arithmetic (`ℚ`),
the idealised semantics the specification's exactness statements refer
to.  The one place where float64 rounding decides an outcome — the
nearest-breakpoint distance comparison of the motion mapping — is
embedded with an explicit binary64 rounding function `fl64` (round to
nearest, ties to even) applied to the literals and subtractions the
program performs.  `numpy` `astype(np.uint8)` casts truncate toward zero, which on the
nonnegative values produced here is `Int.floor`; OpenCV `saturate_cast`
rounds and clamps.  The transcendental gamma curves are embedded over
`ℝ` with `Real.rpow` and settled through exact integer characterisations
of their floors.
-/

/-- Telemetry kinds used by the processor (`TelemetryType` members read in
`interpolate_from_telemetry`).  A snapshot maps each kind to at most one
reading, so the dict `telemetry` is embedded as a record of `Option ℚ`
fields; `none` means the kind is absent from the snapshot. -/
structure Telemetry where
  ambient_light : Option ℚ
  motion : Option ℚ
  color_temperature : Option ℚ
deriving DecidableEq

/-- Tone-curve selector.  The source stores a string; the only values
appearing in the presets and the dataclass default are `"linear"`,
`"s_curve"` and `"adaptive"`, and any other string behaves as `linear`
(neither `if` branch of stage 7 fires). -/
inductive ToneCurve where
  | linear
  | s_curve
  | adaptive
deriving DecidableEq

/-- `HDRParameters` dataclass (hdr_processor.py lines 18-31). -/
structure HDRParameters where
  exposure : ℚ
  contrast : ℚ
  saturation : ℚ
  clahe_clip : ℚ
  clahe_grid : ℕ × ℕ
  sharpening : ℚ
  highlights : ℚ
  shadows : ℚ
  white_balance : ℚ × ℚ × ℚ
  tone_curve : ToneCurve
  denoise_strength : ℤ
deriving DecidableEq

/-- Field defaults of the `HDRParameters` dataclass. -/
def HDRParameters.default : HDRParameters :=
  { exposure := 1
    contrast := 1
    saturation := 11/10
    clahe_clip := 3
    clahe_grid := (8, 8)
    sharpening := 3/5
    highlights := 0
    shadows := 0
    white_balance := (1, 1, 1)
    tone_curve := .s_curve
    denoise_strength := 5 }

/-- Uniqueness of the base-2 logarithm floor from its two bounds. -/
lemma int_log2_eq (q : ℚ) (e : ℤ) (h0 : 0 < q)
    (h1 : (2:ℚ) ^ e ≤ q) (h2 : q < (2:ℚ) ^ (e + 1)) : Int.log 2 q = e := by
  have ha := Int.zpow_log_le_self (b := 2) (R := ℚ) (by norm_num) h0
  have hb := Int.lt_zpow_succ_log_self (b := 2) (R := ℚ) (by norm_num) q
  have k1 : (2:ℚ) ^ (Int.log 2 q) < (2:ℚ) ^ (e + 1) := lt_of_le_of_lt ha h2
  have k2 : (2:ℚ) ^ e < (2:ℚ) ^ (Int.log 2 q + 1) := lt_of_le_of_lt h1 hb
  have l1 : Int.log 2 q < e + 1 :=
    (zpow_lt_zpow_iff_right₀ (by norm_num : (1:ℚ) < 2)).mp k1
  have l2 : e < Int.log 2 q + 1 :=
    (zpow_lt_zpow_iff_right₀ (by norm_num : (1:ℚ) < 2)).mp k2
  omega

/-- Round a scaled mantissa (a rational in `[2^52, 2^53)`) to the nearest
integer, ties to even. -/
def fl64m (s : ℚ) : ℤ :=
  if s - ⌊s⌋ < 1/2 then ⌊s⌋
  else if 1/2 < s - ⌊s⌋ then ⌊s⌋ + 1
  else if ⌊s⌋ % 2 = 0 then ⌊s⌋ else ⌊s⌋ + 1

/-- Modelled from the spec: the IEEE binary64 arithmetic of the Python
runtime, which is outside this repository's code.  `fl64 q` is the
double nearest to `q` (round to nearest, ties to even), with unbounded
exponent range — overflow and subnormals cannot occur at the magnitudes
used here.  A decimal literal such as `0.3` in the source denotes
`fl64 (3/10)`, and a float subtraction returns `fl64` of the exact
difference (IEEE subtraction is correctly rounded). -/
def fl64 (q : ℚ) : ℚ :=
  if q = 0 then 0
  else
    (if q < 0 then (-1 : ℚ) else 1) *
      (fl64m (|q| / (2:ℚ) ^ (Int.log 2 |q| - 52)) : ℚ) * (2:ℚ) ^ (Int.log 2 |q| - 52)

lemma fl64m_exact (n : ℤ) : fl64m (n : ℚ) = n := by
  unfold fl64m
  rw [Int.floor_intCast]
  norm_num

lemma fl64m_down (s : ℚ) (n : ℤ) (h1 : ⌊s⌋ = n) (h2 : s - (n : ℚ) < 1/2) :
    fl64m s = n := by
  unfold fl64m
  rw [h1, if_pos h2]

lemma fl64m_up (s : ℚ) (n : ℤ) (h1 : ⌊s⌋ = n) (h2 : 1/2 < s - (n : ℚ)) :
    fl64m s = n + 1 := by
  unfold fl64m
  rw [h1, if_neg (by linarith), if_pos h2]

lemma fl64m_tie_odd (s : ℚ) (n : ℤ) (h1 : ⌊s⌋ = n) (h2 : s - (n : ℚ) = 1/2)
    (h3 : n % 2 = 1) : fl64m s = n + 1 := by
  unfold fl64m
  rw [h1, h2, if_neg (by norm_num), if_neg (by norm_num), if_neg (by omega)]

lemma fl64_pos (q : ℚ) (hq : 0 < q) :
    fl64 q = (fl64m (q / (2:ℚ) ^ (Int.log 2 q - 52)) : ℚ) * (2:ℚ) ^ (Int.log 2 q - 52) := by
  unfold fl64
  rw [if_neg (ne_of_gt hq), if_neg (not_lt.mpr hq.le), abs_of_pos hq, one_mul]

lemma fl64_neg (q : ℚ) : fl64 (-q) = - fl64 q := by
  rcases lt_trichotomy q 0 with h | h | h
  · unfold fl64
    rw [if_neg (by simpa using ne_of_lt h), if_neg (ne_of_lt h),
      if_neg (by simpa using not_lt.mpr h.le), if_pos h, abs_neg]
    ring
  · subst h; simp [fl64]
  · unfold fl64
    rw [if_neg (by simpa using ne_of_gt h), if_neg (ne_of_gt h),
      if_pos (by simpa using h), if_neg (not_lt.mpr h.le), abs_neg]
    ring

/-- The binary64 value of the source literal `0.3`
(`0.3·2⁵⁴ = 5404319552844595.2` rounds down). -/
def f64_03 : ℚ := 5404319552844595 / 18014398509481984

/-- The binary64 value of the source literal `0.6` (same mantissa as
0.3, one exponent higher). -/
def f64_06 : ℚ := 5404319552844595 / 9007199254740992

/-- The binary64 value of the literal `0.45`
(`0.45·2⁵⁴ = 8106479329266892.8` rounds up). -/
def f64_045 : ℚ := 8106479329266893 / 18014398509481984

lemma fl64_9_20 : fl64 ((9:ℚ)/20) = 8106479329266893 / 18014398509481984 := by
  have hlog : Int.log 2 ((9:ℚ)/20) = -2 := by
    apply int_log2_eq _ _ (by norm_num)
    · rw [show (-2:ℤ) = -((2:ℕ):ℤ) by norm_num, zpow_neg, zpow_natCast]
      norm_num
    · rw [show ((-2:ℤ) + 1) = -((1:ℕ):ℤ) by norm_num, zpow_neg, zpow_natCast]
      norm_num
  rw [fl64_pos _ (by norm_num), hlog,
    show ((-2:ℤ) - 52) = -((54:ℕ):ℤ) by norm_num, zpow_neg, zpow_natCast,
    show ((9:ℚ)/20) / ((2:ℚ)^(54:ℕ))⁻¹ = 40532396646334464/5 by norm_num,
    fl64m_up _ 8106479329266892
      (Int.floor_eq_iff.mpr ⟨by push_cast; norm_num, by push_cast; norm_num⟩)
      (by push_cast; norm_num)]
  push_cast
  norm_num

lemma fl64_3_10 : fl64 ((3:ℚ)/10) = f64_03 := by
  have hlog : Int.log 2 ((3:ℚ)/10) = -2 := by
    apply int_log2_eq _ _ (by norm_num)
    · rw [show (-2:ℤ) = -((2:ℕ):ℤ) by norm_num, zpow_neg, zpow_natCast]
      norm_num
    · rw [show ((-2:ℤ) + 1) = -((1:ℕ):ℤ) by norm_num, zpow_neg, zpow_natCast]
      norm_num
  rw [fl64_pos _ (by norm_num), hlog,
    show ((-2:ℤ) - 52) = -((54:ℕ):ℤ) by norm_num, zpow_neg, zpow_natCast,
    show ((3:ℚ)/10) / ((2:ℚ)^(54:ℕ))⁻¹ = 27021597764222976/5 by norm_num,
    fl64m_down _ 5404319552844595
      (Int.floor_eq_iff.mpr ⟨by push_cast; norm_num, by push_cast; norm_num⟩)
      (by push_cast; norm_num)]
  unfold f64_03
  push_cast
  norm_num

lemma fl64_3_5 : fl64 ((3:ℚ)/5) = f64_06 := by
  have hlog : Int.log 2 ((3:ℚ)/5) = -1 := by
    apply int_log2_eq _ _ (by norm_num)
    · rw [show (-1:ℤ) = -((1:ℕ):ℤ) by norm_num, zpow_neg, zpow_natCast]
      norm_num
    · rw [show ((-1:ℤ) + 1) = ((0:ℕ):ℤ) by norm_num, zpow_natCast]
      norm_num
  rw [fl64_pos _ (by norm_num), hlog,
    show ((-1:ℤ) - 52) = -((53:ℕ):ℤ) by norm_num, zpow_neg, zpow_natCast,
    show ((3:ℚ)/5) / ((2:ℚ)^(53:ℕ))⁻¹ = 27021597764222976/5 by norm_num,
    fl64m_down _ 5404319552844595
      (Int.floor_eq_iff.mpr ⟨by push_cast; norm_num, by push_cast; norm_num⟩)
      (by push_cast; norm_num)]
  unfold f64_06
  push_cast
  norm_num

lemma fl64_f045 :
    fl64 ((8106479329266893:ℚ) / 18014398509481984) = 8106479329266893 / 18014398509481984 := by
  have hlog : Int.log 2 ((8106479329266893:ℚ) / 18014398509481984) = -2 := by
    apply int_log2_eq _ _ (by norm_num)
    · rw [show (-2:ℤ) = -((2:ℕ):ℤ) by norm_num, zpow_neg, zpow_natCast]
      norm_num
    · rw [show ((-2:ℤ) + 1) = -((1:ℕ):ℤ) by norm_num, zpow_neg, zpow_natCast]
      norm_num
  rw [fl64_pos _ (by norm_num), hlog,
    show ((-2:ℤ) - 52) = -((54:ℕ):ℤ) by norm_num, zpow_neg, zpow_natCast,
    show ((8106479329266893:ℚ)/18014398509481984) / ((2:ℚ)^(54:ℕ))⁻¹
      = ((8106479329266893:ℤ):ℚ) by push_cast; norm_num,
    fl64m_exact]
  push_cast
  norm_num

lemma fl64_d03 :
    fl64 ((2702159776422298:ℚ) / 18014398509481984) = 2702159776422298 / 18014398509481984 := by
  have hlog : Int.log 2 ((2702159776422298:ℚ) / 18014398509481984) = -3 := by
    apply int_log2_eq _ _ (by norm_num)
    · rw [show (-3:ℤ) = -((3:ℕ):ℤ) by norm_num, zpow_neg, zpow_natCast]
      norm_num
    · rw [show ((-3:ℤ) + 1) = -((2:ℕ):ℤ) by norm_num, zpow_neg, zpow_natCast]
      norm_num
  rw [fl64_pos _ (by norm_num), hlog,
    show ((-3:ℤ) - 52) = -((55:ℕ):ℤ) by norm_num, zpow_neg, zpow_natCast,
    show ((2702159776422298:ℚ)/18014398509481984) / ((2:ℚ)^(55:ℕ))⁻¹
      = ((5404319552844596:ℤ):ℚ) by push_cast; norm_num,
    fl64m_exact]
  push_cast
  norm_num

lemma fl64_d06 :
    fl64 ((2702159776422297:ℚ) / 18014398509481984) = 2702159776422297 / 18014398509481984 := by
  have hlog : Int.log 2 ((2702159776422297:ℚ) / 18014398509481984) = -3 := by
    apply int_log2_eq _ _ (by norm_num)
    · rw [show (-3:ℤ) = -((3:ℕ):ℤ) by norm_num, zpow_neg, zpow_natCast]
      norm_num
    · rw [show ((-3:ℤ) + 1) = -((2:ℕ):ℤ) by norm_num, zpow_neg, zpow_natCast]
      norm_num
  rw [fl64_pos _ (by norm_num), hlog,
    show ((-3:ℤ) - 52) = -((55:ℕ):ℤ) by norm_num, zpow_neg, zpow_natCast,
    show ((2702159776422297:ℚ)/18014398509481984) / ((2:ℚ)^(55:ℕ))⁻¹
      = ((5404319552844594:ℤ):ℚ) by push_cast; norm_num,
    fl64m_exact]
  push_cast
  norm_num

lemma fl64_d1 :
    fl64 ((9907919180215091:ℚ) / 18014398509481984) = 9907919180215092 / 18014398509481984 := by
  have hlog : Int.log 2 ((9907919180215091:ℚ) / 18014398509481984) = -1 := by
    apply int_log2_eq _ _ (by norm_num)
    · rw [show (-1:ℤ) = -((1:ℕ):ℤ) by norm_num, zpow_neg, zpow_natCast]
      norm_num
    · rw [show ((-1:ℤ) + 1) = ((0:ℕ):ℤ) by norm_num, zpow_natCast]
      norm_num
  rw [fl64_pos _ (by norm_num), hlog,
    show ((-1:ℤ) - 52) = -((53:ℕ):ℤ) by norm_num, zpow_neg, zpow_natCast,
    show ((9907919180215091:ℚ)/18014398509481984) / ((2:ℚ)^(53:ℕ))⁻¹
      = 9907919180215091/2 by norm_num,
    fl64m_tie_odd _ 4953959590107545
      (Int.floor_eq_iff.mpr ⟨by push_cast; norm_num, by push_cast; norm_num⟩)
      (by push_cast; norm_num)
      (by norm_num)]
  push_cast
  norm_num

/-- `TELEMETRY_HDR_MAPPINGS["ambient_light"]` (settings.py lines 128-135),
as the ascending list of `(lux breakpoint, exposure, contrast)` triples
that `sorted(mapping.keys())` yields. -/
def ambient_map : List (ℚ × ℚ × ℚ) :=
  [(0, 9/5, 6/5), (100, 7/5, 11/10), (500, 6/5, 1), (1000, 1, 19/20), (10000, 4/5, 9/10)]

/-- `TELEMETRY_HDR_MAPPINGS["motion_level"]` (settings.py lines 136-142):
ascending `(motion breakpoint, sharpening)` pairs (the `temporal_denoise`
entry is never read by the processor).  The breakpoint keys are the
binary64 values the source literals `0.0/0.3/0.6/1.0` denote (`0` and
`1` are exact; `fl64_3_10` and `fl64_3_5` identify the other two). -/
def motion_map : List (ℚ × ℚ) :=
  [(0, 4/5), (f64_03, 3/5), (f64_06, 2/5), (1, 1/5)]

/-- `TELEMETRY_HDR_MAPPINGS["color_temperature"]` (settings.py lines
143-149): ascending `(kelvin breakpoint, r_gain, b_gain)` triples. -/
def temp_map : List (ℚ × ℚ × ℚ) :=
  [(2000, 13/10, 7/10), (3000, 11/10, 17/20), (5000, 1, 1), (7000, 9/10, 23/20)]

/-- The bracketing loop of `interpolate_from_telemetry` (hdr_processor.py
lines 48-54 and 79-86): scan adjacent breakpoint pairs in ascending order,
and at the first pair with `p.1 ≤ v ≤ q.1` return both effect fields
linearly interpolated with `t = (v - p.1)/(q.1 - p.1)`; if no pair
brackets `v` the loop falls through and nothing is assigned (`none`). -/
def interp_pairs : ℚ → List (ℚ × ℚ × ℚ) → Option (ℚ × ℚ)
  | v, p :: q :: rest =>
      if p.1 ≤ v ∧ v ≤ q.1 then
        some (p.2.1 * (1 - (v - p.1) / (q.1 - p.1)) + q.2.1 * ((v - p.1) / (q.1 - p.1)),
              p.2.2 * (1 - (v - p.1) / (q.1 - p.1)) + q.2.2 * ((v - p.1) / (q.1 - p.1)))
      else interp_pairs v (q :: rest)
  | _, _ => none

/-- `closest = min(levels, key=lambda x: abs(x - motion))` followed by the
dict lookup `motion_map[closest]` (hdr_processor.py lines 62-64).  The
key `abs(x - motion)` subtracts in float64 — `fl64` of the exact
difference of the two doubles (IEEE subtraction is correctly rounded),
abs is exact — and Python's `min` walks the ascending key list keeping
the incumbent unless it sees a strictly smaller key.  The fold carries
each breakpoint's effect alongside it. -/
def closest_motion (m : ℚ) : ℚ × ℚ :=
  [(f64_03, (3:ℚ)/5), (f64_06, (2:ℚ)/5), ((1:ℚ), (1:ℚ)/5)].foldl
    (fun best y => if |fl64 (y.1 - m)| < |fl64 (best.1 - m)| then y else best)
    ((0:ℚ), (4:ℚ)/5)

/-- `HDRParameters.interpolate_from_telemetry` (hdr_processor.py lines
33-86).  Note the clamp branches of the ambient-light and
color-temperature sections (lines 42-45 and 73-76) bind the boundary
effect to a local (`params` resp. `wb`) that is never read afterwards, so
in those branches the parameters are returned unchanged. -/
def HDRParameters.interpolate_from_telemetry (p : HDRParameters) (t : Telemetry) :
    HDRParameters :=
  let p1 :=
    match t.ambient_light with
    | none => p
    | some lux =>
        if lux ≤ 0 then p          -- `params = mapping[lux_points[0]]`, unused
        else if 10000 ≤ lux then p -- `params = mapping[lux_points[-1]]`, unused
        else
          match interp_pairs lux ambient_map with
          | some (e, c) => { p with exposure := e, contrast := c }
          | none => p
  let p2 :=
    match t.motion with
    | none => p1
    | some m => { p1 with sharpening := (closest_motion m).2 }
  match t.color_temperature with
  | none => p2
  | some k =>
      if k ≤ 2000 then p2          -- `wb = temp_map[temps[0]]`, unused
      else if 7000 ≤ k then p2     -- `wb = temp_map[temps[-1]]`, unused
      else
        match interp_pairs k temp_map with
        | some (r, b) => { p2 with white_balance := (r, 1, b) }
        | none => p2

/-- The fold over the motion table picks an entry of the table whose
breakpoint is at minimum float64 absolute distance from the reading. -/
lemma closest_motion_min (m : ℚ) :
    closest_motion m ∈ motion_map
    ∧ ∀ q ∈ motion_map, |fl64 ((closest_motion m).1 - m)| ≤ |fl64 (q.1 - m)| := by
  unfold closest_motion
  simp only [List.foldl_cons, List.foldl_nil]
  split_ifs with h1 h2 h3 h4 h5 h6 h7 <;>
    simp only [not_lt] at * <;>
    refine ⟨by norm_num [motion_map], ?_⟩ <;>
    · intro q hq
      simp only [motion_map, List.mem_cons, List.not_mem_nil, or_false] at hq
      rcases hq with rfl | rfl | rfl | rfl <;> simp only at * <;> linarith

/-- The program's key value at breakpoint 0.0 for the reading 0.45. -/
lemma key_at_0 : |fl64 ((0:ℚ) - f64_045)| = f64_045 := by
  rw [show (0:ℚ) - f64_045 = -f64_045 by ring, fl64_neg, abs_neg]
  unfold f64_045
  rw [fl64_f045, abs_of_pos (by norm_num)]

/-- Key at breakpoint 0.3: the subtraction `fl(0.3) - fl(0.45)` is exact
in float64 (the difference is representable). -/
lemma key_at_03 : |fl64 (f64_03 - f64_045)| = 2702159776422298 / 18014398509481984 := by
  rw [show f64_03 - f64_045 = -((2702159776422298:ℚ)/18014398509481984) by
      unfold f64_03 f64_045; norm_num,
    fl64_neg, abs_neg, fl64_d03, abs_of_pos (by norm_num)]

/-- Key at breakpoint 0.6, also exact — and one ulp SMALLER than the key
at 0.3: in IEEE arithmetic 0.6 is strictly closer to 0.45. -/
lemma key_at_06 : |fl64 (f64_06 - f64_045)| = 2702159776422297 / 18014398509481984 := by
  rw [show f64_06 - f64_045 = (2702159776422297:ℚ)/18014398509481984 by
      unfold f64_06 f64_045; norm_num,
    fl64_d06, abs_of_pos (by norm_num)]

/-- Key at breakpoint 1.0 (here the subtraction does round: the exact
difference needs 54 mantissa bits and ties to even). -/
lemma key_at_1 : |fl64 ((1:ℚ) - f64_045)| = 9907919180215092 / 18014398509481984 := by
  rw [show (1:ℚ) - f64_045 = (9907919180215091:ℚ)/18014398509481984 by
      unfold f64_045; norm_num,
    fl64_d1, abs_of_pos (by norm_num)]

/-- At the reading 0.45 the fold selects the 0.6 entry: the float64
distances are 0.45, ~0.15+ulp, ~0.15, ~0.55, strictly minimised at 0.6. -/
lemma closest_motion_at_045 : closest_motion f64_045 = (f64_06, 2/5) := by
  unfold closest_motion
  simp only [List.foldl_cons, List.foldl_nil]
  dsimp only
  rw [if_pos (by rw [key_at_03, key_at_0]; unfold f64_045; norm_num :
        |fl64 (f64_03 - f64_045)| < |fl64 ((0:ℚ) - f64_045)|)]
  rw [if_pos (by rw [key_at_06, key_at_03]; norm_num :
        |fl64 (f64_06 - f64_045)| < |fl64 (f64_03 - f64_045)|)]
  rw [if_neg (by rw [key_at_1, key_at_06]; norm_num :
        ¬ |fl64 ((1:ℚ) - f64_045)| < |fl64 (f64_06 - f64_045)|)]

/-- C1.  The claim is refuted by the code: the clamp branches of
`interpolate_from_telemetry` bind the boundary effect to a local
(`params` at lines 43/45, `wb` at lines 74/76) that is never applied, so
an out-of-range reading leaves every parameter unchanged instead of
setting the boundary effect.  At ambient light 0 lux (≤ smallest
breakpoint 0) exposure stays 1 instead of the boundary value 9/5; at
20000 lux it stays 1 instead of 4/5; at color temperature 1000 K and
9000 K the white balance stays (1,1,1) instead of (13/10,1,7/10) resp.
(9/10,1,23/20). -/
theorem clamp_branches_leave_parameters_unchanged :
    (HDRParameters.default.interpolate_from_telemetry ⟨some 0, none, none⟩
        = HDRParameters.default
      ∧ HDRParameters.default.interpolate_from_telemetry ⟨some 20000, none, none⟩
        = HDRParameters.default
      ∧ HDRParameters.default.interpolate_from_telemetry ⟨none, none, some 1000⟩
        = HDRParameters.default
      ∧ HDRParameters.default.interpolate_from_telemetry ⟨none, none, some 9000⟩
        = HDRParameters.default)
    ∧ (HDRParameters.default.interpolate_from_telemetry ⟨some 0, none, none⟩).exposure ≠ 9/5
    ∧ (HDRParameters.default.interpolate_from_telemetry ⟨some 20000, none, none⟩).exposure ≠ 4/5
    ∧ (HDRParameters.default.interpolate_from_telemetry ⟨none, none, some 1000⟩).white_balance
        ≠ (13/10, 1, 7/10)
    ∧ (HDRParameters.default.interpolate_from_telemetry ⟨none, none, some 9000⟩).white_balance
        ≠ (9/10, 1, 23/20) := by
  refine ⟨⟨?_, ?_, ?_, ?_⟩, ?_, ?_, ?_, ?_⟩ <;>
    norm_num [HDRParameters.interpolate_from_telemetry, HDRParameters.default, Prod.ext_iff]

/-- C2.  For every motion reading the code sets sharpening to the effect
of a breakpoint at minimum absolute distance from the reading — nearest
neighbour, copied verbatim, no linear blend — where distances are the
program's float64 values `|fl64 (x - m)|`.  At the reading 0.45 (the
binary64 value of the literal) the distances to 0.3 and 0.6 are NOT
equal: `|fl(0.6) - fl(0.45)| = 2702159776422297/2^54` is one ulp below
`|fl(0.45) - fl(0.3)| = 2702159776422298/2^54`, so `min` selects the
higher breakpoint 0.6 and sharpening becomes 2/5 = 0.4, exactly as the
claim requires. -/
theorem motion_selects_nearest_breakpoint (p : HDRParameters) (m : ℚ) :
    closest_motion m ∈ motion_map
    ∧ (∀ q ∈ motion_map, |fl64 ((closest_motion m).1 - m)| ≤ |fl64 (q.1 - m)|)
    ∧ (p.interpolate_from_telemetry ⟨none, some m, none⟩).sharpening
        = (closest_motion m).2
    ∧ closest_motion (fl64 (9/20)) = (f64_06, 2/5)
    ∧ (p.interpolate_from_telemetry ⟨none, some (fl64 (9/20)), none⟩).sharpening
        = 2/5 := by
  obtain ⟨h1, h2⟩ := closest_motion_min m
  have h045 : closest_motion (fl64 (9/20)) = (f64_06, 2/5) := by
    rw [show fl64 ((9:ℚ)/20) = f64_045 from fl64_9_20]
    exact closest_motion_at_045
  refine ⟨h1, h2, rfl, h045, ?_⟩
  show (closest_motion (fl64 (9/20))).2 = 2/5
  rw [h045]

theorem motion_selects_nearest_breakpoint_witness :
    (f64_06, (2:ℚ)/5) ∈ motion_map
    ∧ |fl64 ((closest_motion 0).1 - 0)| ≤ |fl64 ((f64_06, (2:ℚ)/5).1 - 0)|
    ∧ (HDRParameters.default.interpolate_from_telemetry
        ⟨none, some (fl64 (9/20)), none⟩).sharpening = 2/5 := by
  have h := motion_selects_nearest_breakpoint HDRParameters.default 0
  exact ⟨by norm_num [motion_map], h.2.1 (f64_06, (2:ℚ)/5) (by norm_num [motion_map]),
    h.2.2.2.2⟩

/-- C3.  For every ambient-light value strictly between two adjacent
breakpoints of the ambient-light table, the code sets exposure to the
linear interpolation `a*(1-t) + b*t` with `t = (v - b_i)/(b_{i+1} - b_i)`
of the two bracketing exposure effects. -/
theorem ambient_light_interior_lerp (p : HDRParameters) (v : ℚ) :
    (0 < v → v < 100 →
      (p.interpolate_from_telemetry ⟨some v, none, none⟩).exposure
        = 9/5 * (1 - (v - 0) / (100 - 0)) + 7/5 * ((v - 0) / (100 - 0)))
    ∧ (100 < v → v < 500 →
      (p.interpolate_from_telemetry ⟨some v, none, none⟩).exposure
        = 7/5 * (1 - (v - 100) / (500 - 100)) + 6/5 * ((v - 100) / (500 - 100)))
    ∧ (500 < v → v < 1000 →
      (p.interpolate_from_telemetry ⟨some v, none, none⟩).exposure
        = 6/5 * (1 - (v - 500) / (1000 - 500)) + 1 * ((v - 500) / (1000 - 500)))
    ∧ (1000 < v → v < 10000 →
      (p.interpolate_from_telemetry ⟨some v, none, none⟩).exposure
        = 1 * (1 - (v - 1000) / (10000 - 1000)) + 4/5 * ((v - 1000) / (10000 - 1000))) := by
  refine ⟨fun h1 h2 => ?_, fun h1 h2 => ?_, fun h1 h2 => ?_, fun h1 h2 => ?_⟩ <;>
  · simp only [HDRParameters.interpolate_from_telemetry, ambient_map, interp_pairs]
    rw [if_neg (by linarith), if_neg (by linarith)]
    repeat rw [if_neg (by rintro ⟨-, hc⟩; linarith)]
    rw [if_pos ⟨by linarith, by linarith⟩]

/-- The halfway example of C3: ambient light 750 lies strictly between the
breakpoints 500 (exposure 6/5) and 1000 (exposure 1) and yields exposure
exactly 11/10. -/
theorem ambient_light_interior_lerp_witness :
    (500 : ℚ) < 750 ∧ (750 : ℚ) < 1000
    ∧ (HDRParameters.default.interpolate_from_telemetry ⟨some 750, none, none⟩).exposure
        = 11/10 := by
  have h := (ambient_light_interior_lerp HDRParameters.default 750).2.2.1
    (by norm_num) (by norm_num)
  refine ⟨by norm_num, by norm_num, ?_⟩
  rw [h]; norm_num

/-- `self.gamma_decode` entry value before the `uint8` cast
(hdr_processor.py lines 119-122): `(i / 255.0) ** 2.2 * 255` with the
exponent 2.2 = 11/5. -/
noncomputable def gamma_decode_real (i : ℕ) : ℝ :=
  ((i : ℝ) / 255) ^ ((11 : ℝ) / 5) * 255

/-- `self.gamma_decode[i]`: `np.uint8` casts by truncation toward zero,
which on these nonnegative values is the floor. -/
noncomputable def gamma_decode (i : ℕ) : ℤ :=
  ⌊gamma_decode_real i⌋

/-- `self.gamma_encode` entry value before the `uint8` cast
(hdr_processor.py lines 123-126): `(i / 255.0) ** (1 / 2.2) * 255` with
the exponent 1/2.2 = 5/11. -/
noncomputable def gamma_encode_real (i : ℕ) : ℝ :=
  ((i : ℝ) / 255) ^ ((5 : ℝ) / 11) * 255

/-- `self.gamma_encode[i]` (truncated). -/
noncomputable def gamma_encode (i : ℕ) : ℤ :=
  ⌊gamma_encode_real i⌋

lemma gamma_decode_real_nonneg (i : ℕ) : 0 ≤ gamma_decode_real i := by
  unfold gamma_decode_real
  positivity

lemma gamma_encode_real_nonneg (i : ℕ) : 0 ≤ gamma_encode_real i := by
  unfold gamma_encode_real
  positivity

/-- Exact integer characterisation of comparisons against the decode
curve: `a/b ≤ 255·(i/255)^(11/5)` iff `a⁵·255⁶ ≤ i¹¹·b⁵`. -/
lemma le_gamma_decode_real_iff (i a b : ℕ) (hb : 0 < b) :
    (a : ℝ) / b ≤ gamma_decode_real i ↔ a ^ 5 * 255 ^ 6 ≤ i ^ 11 * b ^ 5 := by
  have hb' : (0 : ℝ) < b := by exact_mod_cast hb
  have hx : (0 : ℝ) ≤ (i : ℝ) / 255 := by positivity
  have hpow : gamma_decode_real i ^ 5 = (i : ℝ) ^ 11 / 255 ^ 6 := by
    unfold gamma_decode_real
    rw [mul_pow, ← Real.rpow_natCast (((i : ℝ) / 255) ^ ((11 : ℝ) / 5)) 5,
      ← Real.rpow_mul hx]
    norm_num
    rw [show (11 : ℝ) = ((11 : ℕ) : ℝ) by norm_num, Real.rpow_natCast, div_pow]
    field_simp
    ring
  rw [show ((a : ℝ) / b ≤ gamma_decode_real i) ↔
        ((a : ℝ) / b) ^ 5 ≤ gamma_decode_real i ^ 5 from
      (pow_le_pow_iff_left₀ (by positivity) (gamma_decode_real_nonneg i) (by norm_num)).symm,
    hpow, div_pow, div_le_div_iff₀ (by positivity) (by positivity)]
  exact_mod_cast Iff.rfl

/-- Exact integer characterisation for the encode curve:
`a/b ≤ 255·(i/255)^(5/11)` iff `a¹¹ ≤ 255⁶·i⁵·b¹¹`. -/
lemma le_gamma_encode_real_iff (i a b : ℕ) (hb : 0 < b) :
    (a : ℝ) / b ≤ gamma_encode_real i ↔ a ^ 11 ≤ 255 ^ 6 * i ^ 5 * b ^ 11 := by
  have hb' : (0 : ℝ) < b := by exact_mod_cast hb
  have hx : (0 : ℝ) ≤ (i : ℝ) / 255 := by positivity
  have hpow : gamma_encode_real i ^ 11 = 255 ^ 6 * (i : ℝ) ^ 5 := by
    unfold gamma_encode_real
    rw [mul_pow, ← Real.rpow_natCast (((i : ℝ) / 255) ^ ((5 : ℝ) / 11) ) 11,
      ← Real.rpow_mul hx]
    norm_num
    rw [show (5 : ℝ) = ((5 : ℕ) : ℝ) by norm_num, Real.rpow_natCast, div_pow]
    field_simp
    ring
  rw [show ((a : ℝ) / b ≤ gamma_encode_real i) ↔
        ((a : ℝ) / b) ^ 11 ≤ gamma_encode_real i ^ 11 from
      (pow_le_pow_iff_left₀ (by positivity) (gamma_encode_real_nonneg i) (by norm_num)).symm,
    hpow, div_pow, div_le_iff₀ (by positivity)]
  exact_mod_cast Iff.rfl

lemma gamma_decode_eq (i n : ℕ) (h1 : n ^ 5 * 255 ^ 6 ≤ i ^ 11)
    (h2 : i ^ 11 < (n + 1) ^ 5 * 255 ^ 6) : gamma_decode i = n := by
  unfold gamma_decode
  refine Int.floor_eq_iff.mpr ⟨?_, ?_⟩
  · have h := (le_gamma_decode_real_iff i n 1 one_pos).mpr (by simpa using h1)
    simpa using h
  · by_contra hc
    push_neg at hc
    have := (le_gamma_decode_real_iff i (n + 1) 1 one_pos).mp (by push_cast; simpa using hc)
    simp only [one_pow, mul_one] at this
    omega

lemma gamma_encode_eq (i n : ℕ) (h1 : n ^ 11 ≤ 255 ^ 6 * i ^ 5)
    (h2 : 255 ^ 6 * i ^ 5 < (n + 1) ^ 11) : gamma_encode i = n := by
  unfold gamma_encode
  refine Int.floor_eq_iff.mpr ⟨?_, ?_⟩
  · have h := (le_gamma_encode_real_iff i n 1 one_pos).mpr (by simpa using h1)
    simpa using h
  · by_contra hc
    push_neg at hc
    have := (le_gamma_encode_real_iff i (n + 1) 1 one_pos).mp (by push_cast; simpa using hc)
    simp only [one_pow, mul_one] at this
    omega

lemma gamma_decode_128 : gamma_decode 128 = 55 :=
  gamma_decode_eq 128 55 (by norm_num) (by norm_num)

lemma gamma_encode_55 : gamma_encode 55 = 126 :=
  gamma_encode_eq 55 126 (by norm_num) (by norm_num)

/-- Floor characterisation of every decode-table entry: the entry is the
unique `n` with `n⁵·255⁶ ≤ i¹¹ < (n+1)⁵·255⁶`, and it fits in a byte. -/
lemma gamma_decode_char (i : ℕ) (hi : i ≤ 255) :
    0 ≤ gamma_decode i ∧ gamma_decode i ≤ 255
    ∧ (gamma_decode i).toNat ^ 5 * 255 ^ 6 ≤ i ^ 11
    ∧ i ^ 11 < ((gamma_decode i).toNat + 1) ^ 5 * 255 ^ 6 := by
  have h0 : 0 ≤ gamma_decode i :=
    Int.le_floor.mpr (by simpa using gamma_decode_real_nonneg i)
  have hn : ((gamma_decode i).toNat : ℤ) = gamma_decode i := Int.toNat_of_nonneg h0
  have e : gamma_decode i = ⌊gamma_decode_real i⌋ := rfl
  have hfl : ((gamma_decode i).toNat : ℝ) ≤ gamma_decode_real i := by
    have h2 : ((gamma_decode i : ℤ) : ℝ) ≤ gamma_decode_real i := by
      rw [e]; exact Int.floor_le _
    rw [← hn] at h2
    exact_mod_cast h2
  have h1 : (gamma_decode i).toNat ^ 5 * 255 ^ 6 ≤ i ^ 11 := by
    have := (le_gamma_decode_real_iff i (gamma_decode i).toNat 1 one_pos).mp
      (by push_cast; simpa using hfl)
    simpa using this
  have hlt : gamma_decode_real i < ((gamma_decode i).toNat : ℝ) + 1 := by
    have h2 : gamma_decode_real i < ((gamma_decode i : ℤ) : ℝ) + 1 := by
      rw [e]; exact Int.lt_floor_add_one _
    rw [← hn] at h2
    exact_mod_cast h2
  have h2 : i ^ 11 < ((gamma_decode i).toNat + 1) ^ 5 * 255 ^ 6 := by
    by_contra hc
    push_neg at hc
    have := (le_gamma_decode_real_iff i ((gamma_decode i).toNat + 1) 1 one_pos).mpr
      (by simpa using hc)
    push_cast at this
    linarith
  refine ⟨h0, ?_, h1, h2⟩
  by_contra hc
  push_neg at hc
  have h256 : ((256 : ℕ) : ℝ) / ((1 : ℕ) : ℝ) ≤ gamma_decode_real i := by
    push_cast
    rw [div_one]
    have : (256 : ℤ) ≤ gamma_decode i := by omega
    calc (256 : ℝ) = ((256 : ℤ) : ℝ) := by norm_num
    _ ≤ ((gamma_decode i : ℤ) : ℝ) := by exact_mod_cast this
    _ ≤ gamma_decode_real i := by rw [e]; exact Int.floor_le _
  have hbig := (le_gamma_decode_real_iff i 256 1 one_pos).mp h256
  have hsmall : i ^ 11 ≤ 255 ^ 11 := Nat.pow_le_pow_left hi 11
  have : (255 : ℕ) ^ 11 < 256 ^ 5 * 255 ^ 6 := by norm_num
  omega

/-- Floor characterisation of every encode-table entry: the entry is the
unique `n` with `n¹¹ ≤ 255⁶·i⁵ < (n+1)¹¹`, and it fits in a byte. -/
lemma gamma_encode_char (i : ℕ) (hi : i ≤ 255) :
    0 ≤ gamma_encode i ∧ gamma_encode i ≤ 255
    ∧ (gamma_encode i).toNat ^ 11 ≤ 255 ^ 6 * i ^ 5
    ∧ 255 ^ 6 * i ^ 5 < ((gamma_encode i).toNat + 1) ^ 11 := by
  have h0 : 0 ≤ gamma_encode i :=
    Int.le_floor.mpr (by simpa using gamma_encode_real_nonneg i)
  have hn : ((gamma_encode i).toNat : ℤ) = gamma_encode i := Int.toNat_of_nonneg h0
  have e : gamma_encode i = ⌊gamma_encode_real i⌋ := rfl
  have hfl : ((gamma_encode i).toNat : ℝ) ≤ gamma_encode_real i := by
    have h2 : ((gamma_encode i : ℤ) : ℝ) ≤ gamma_encode_real i := by
      rw [e]; exact Int.floor_le _
    rw [← hn] at h2
    exact_mod_cast h2
  have h1 : (gamma_encode i).toNat ^ 11 ≤ 255 ^ 6 * i ^ 5 := by
    have := (le_gamma_encode_real_iff i (gamma_encode i).toNat 1 one_pos).mp
      (by push_cast; simpa using hfl)
    simpa using this
  have hlt : gamma_encode_real i < ((gamma_encode i).toNat : ℝ) + 1 := by
    have h2 : gamma_encode_real i < ((gamma_encode i : ℤ) : ℝ) + 1 := by
      rw [e]; exact Int.lt_floor_add_one _
    rw [← hn] at h2
    exact_mod_cast h2
  have h2 : 255 ^ 6 * i ^ 5 < ((gamma_encode i).toNat + 1) ^ 11 := by
    by_contra hc
    push_neg at hc
    have := (le_gamma_encode_real_iff i ((gamma_encode i).toNat + 1) 1 one_pos).mpr
      (by simpa using hc)
    push_cast at this
    linarith
  refine ⟨h0, ?_, h1, h2⟩
  by_contra hc
  push_neg at hc
  have h256 : ((256 : ℕ) : ℝ) / ((1 : ℕ) : ℝ) ≤ gamma_encode_real i := by
    push_cast
    rw [div_one]
    have : (256 : ℤ) ≤ gamma_encode i := by omega
    calc (256 : ℝ) = ((256 : ℤ) : ℝ) := by norm_num
    _ ≤ ((gamma_encode i : ℤ) : ℝ) := by exact_mod_cast this
    _ ≤ gamma_encode_real i := by rw [e]; exact Int.floor_le _
  have hbig := (le_gamma_encode_real_iff i 256 1 one_pos).mp h256
  have hsmall : i ^ 5 ≤ 255 ^ 5 := Nat.pow_le_pow_left hi 5
  have hmul : 255 ^ 6 * i ^ 5 ≤ 255 ^ 6 * 255 ^ 5 := Nat.mul_le_mul_left _ hsmall
  have : 255 ^ 6 * 255 ^ 5 < (256 : ℕ) ^ 11 := by norm_num
  omega

/-- C4, counterexample.  At index 128 the decode table stores
`trunc(255·(128/255)^2.2) = 55`, while the claim's formula
`round(255·(128/255)^2.2)` clamped to `[0,255]` gives 56: the `uint8`
cast truncates, it does not round. -/
theorem gamma_decode_entry_128_truncates_not_rounds :
    gamma_decode 128 = 55
    ∧ min 255 (max 0 (round (gamma_decode_real 128))) = 56 := by
  refine ⟨gamma_decode_128, ?_⟩
  have h56 : round (gamma_decode_real 128) = 56 := by
    rw [round_eq]
    refine Int.floor_eq_iff.mpr ⟨?_, ?_⟩
    · have h := (le_gamma_decode_real_iff 128 111 2 (by norm_num)).mpr (by norm_num)
      push_cast at h ⊢
      linarith
    · have h : ¬ ((111 + 2 : ℕ) : ℝ) / ((2 : ℕ) : ℝ) ≤ gamma_decode_real 128 := by
        rw [le_gamma_decode_real_iff 128 113 2 (by norm_num)]
        norm_num
      rw [not_le] at h
      push_cast at h ⊢
      linarith
  rw [h56]
  norm_num

/-- C4, amended.  Every entry of the two gamma tables is the TRUNCATION
(floor, as performed by the `np.uint8` cast) of `255·(i/255)^2.2` resp.
`255·(i/255)^(1/2.2)`, characterised exactly by
`n⁵·255⁶ ≤ i¹¹ < (n+1)⁵·255⁶` resp. `n¹¹ ≤ 255⁶·i⁵ < (n+1)¹¹`; each
entry lies in `[0, 255]`, so no clamping ever takes effect. -/
theorem gamma_lut_entries_are_truncations (i : ℕ) (hi : i ≤ 255) :
    (0 ≤ gamma_decode i ∧ gamma_decode i ≤ 255
      ∧ (gamma_decode i).toNat ^ 5 * 255 ^ 6 ≤ i ^ 11
      ∧ i ^ 11 < ((gamma_decode i).toNat + 1) ^ 5 * 255 ^ 6)
    ∧ (0 ≤ gamma_encode i ∧ gamma_encode i ≤ 255
      ∧ (gamma_encode i).toNat ^ 11 ≤ 255 ^ 6 * i ^ 5
      ∧ 255 ^ 6 * i ^ 5 < ((gamma_encode i).toNat + 1) ^ 11) :=
  ⟨gamma_decode_char i hi, gamma_encode_char i hi⟩

theorem gamma_lut_entries_are_truncations_witness :
    128 ≤ 255
    ∧ ((0 ≤ gamma_decode 128 ∧ gamma_decode 128 ≤ 255
        ∧ (gamma_decode 128).toNat ^ 5 * 255 ^ 6 ≤ 128 ^ 11
        ∧ 128 ^ 11 < ((gamma_decode 128).toNat + 1) ^ 5 * 255 ^ 6)
      ∧ (0 ≤ gamma_encode 128 ∧ gamma_encode 128 ≤ 255
        ∧ (gamma_encode 128).toNat ^ 11 ≤ 255 ^ 6 * 128 ^ 5
        ∧ 255 ^ 6 * 128 ^ 5 < ((gamma_encode 128).toNat + 1) ^ 11)) :=
  ⟨by norm_num, gamma_lut_entries_are_truncations 128 (by norm_num)⟩

/-- C5, counterexample.  Chaining the decode then encode tables at input
128 gives `gamma_encode[gamma_decode[128]] = gamma_encode[55] = 126`,
which differs from 128 by 2, violating the claimed ±1 bound. -/
theorem gamma_roundtrip_at_128_off_by_two :
    ¬ |gamma_encode (gamma_decode 128).toNat - 128| ≤ 1 := by
  rw [gamma_decode_128, show ((55 : ℤ)).toNat = 55 from rfl, gamma_encode_55]
  norm_num

/-- C5, amended.  The decode→encode round trip at input 128 yields
exactly 126: the error is 2 (the truncating tables each lose up to one
step, so the bound ±1 claimed for rounded tables becomes ±2 here). -/
theorem gamma_roundtrip_at_128_equals_126 :
    gamma_encode (gamma_decode 128).toNat = 126
    ∧ |gamma_encode (gamma_decode 128).toNat - 128| ≤ 2 := by
  rw [gamma_decode_128, show ((55 : ℤ)).toNat = 55 from rfl, gamma_encode_55]
  norm_num

/-- `_create_highlight_lut` curve value at position `x ∈ [0,1]`
(hdr_processor.py lines 136-147): identity up to the knee, Reinhard-style
compression `knee + (x-knee)/(1+(x-knee))` above it. -/
def knee_curve (k x : ℚ) : ℚ :=
  if x ≤ k then x else k + (x - k) / (1 + (x - k))

/-- `self.highlight_lut[i]` with the default knee 0.7: the curve is
sampled at `x = i/255` (`np.linspace(0, 1, 256)`), scaled by 255 and cast
to `uint8` (truncation). -/
def highlight_lut (i : ℕ) : ℤ :=
  ⌊knee_curve (7/10) ((i : ℚ) / 255) * 255⌋

lemma knee_curve_mono (k x1 x2 : ℚ) (h : x1 ≤ x2) :
    knee_curve k x1 ≤ knee_curve k x2 := by
  unfold knee_curve
  split_ifs with h1 h2 h2
  · exact h
  · have hd : 0 < x2 - k := by linarith
    have hq : 0 ≤ (x2 - k) / (1 + (x2 - k)) := by positivity
    linarith
  · linarith
  · have hd1 : 0 < x1 - k := by linarith
    have hd2 : 0 < x2 - k := by linarith
    have key : (x1 - k) / (1 + (x1 - k)) ≤ (x2 - k) / (1 + (x2 - k)) := by
      rw [div_le_div_iff₀ (by linarith) (by linarith)]
      nlinarith
    linarith

/-- C6.  The highlight-knee lookup table with knee 0.7 is monotonically
non-decreasing over its whole 256-entry domain. -/
theorem highlight_lut_monotone (i j : ℕ) (hij : i ≤ j) (hj : j ≤ 255) :
    highlight_lut i ≤ highlight_lut j := by
  unfold highlight_lut
  apply Int.floor_le_floor
  have hq : (i : ℚ) ≤ (j : ℚ) := by exact_mod_cast hij
  have hx : ((i : ℚ) / 255) ≤ ((j : ℚ) / 255) := by linarith
  exact mul_le_mul_of_nonneg_right (knee_curve_mono (7/10) _ _ hx) (by norm_num)

theorem highlight_lut_monotone_witness :
    10 ≤ 200 ∧ 200 ≤ 255 ∧ highlight_lut 10 ≤ highlight_lut 200 :=
  ⟨by norm_num, by norm_num, highlight_lut_monotone 10 200 (by norm_num) (by norm_num)⟩

/-- A pixel: one `(b, g, r)` triple of 8-bit channel values (stored as
naturals; the pipeline's own arithmetic clamps to `[0,255]`). -/
abbrev Pix := ℕ × ℕ × ℕ

/-- An image buffer: dimensions plus the pixel at each `(row, column)`.
The 3-channel BGR format is fixed by the `Pix` type. -/
structure Image where
  height : ℕ
  width : ℕ
  px : ℕ → ℕ → Pix

/-- The OpenCV primitives `process_frame` calls whose internal pixel math
is outside this repository.  Color-space conversions are per-pixel maps;
CLAHE, Gaussian blur and the denoiser are whole-plane transforms.  Every
claim settled below holds for arbitrary values of these kernels. -/
structure CVKernels where
  bgr2lab : Pix → Pix
  lab2bgr : Pix → Pix
  bgr2hsv : Pix → Pix
  hsv2bgr : Pix → Pix
  bgr2gray : Pix → ℕ
  grayF : ℚ × ℚ × ℚ → ℚ
  clahe : ℚ → ℕ × ℕ → (ℕ → ℕ → ℕ) → (ℕ → ℕ → ℕ)
  gaussianBlur : (ℕ → ℕ → Pix) → (ℕ → ℕ → Pix)
  denoise : ℤ → (ℕ → ℕ → Pix) → (ℕ → ℕ → Pix)

/-- `astype(np.uint8)` on a nonnegative clipped value: truncation. -/
def toU8 (q : ℚ) : ℕ := ⌊q⌋.toNat

/-- OpenCV `saturate_cast<uchar>`: round to nearest, clamp to [0,255]
(used by `cv2.addWeighted`). -/
def satU8 (q : ℚ) : ℕ := (min 255 (max 0 (round q))).toNat

/-- Apply a per-pixel map, keeping dimensions (`cv2.cvtColor` shape). -/
def mapPx (f : Pix → Pix) (im : Image) : Image :=
  ⟨im.height, im.width, fun y x => f (im.px y x)⟩

/-- `cv2.LUT`: index a 256-entry table with each channel value. -/
def cvLUT (lut : ℕ → ℕ) (im : Image) : Image :=
  mapPx (fun p => (lut p.1, lut p.2.1, lut p.2.2)) im

/-- Stage 2 (lines 175-179): if the gain triple is not (1,1,1), scale the
blue channel by `white_balance[2]` and the red channel by
`white_balance[0]`, clip to [0,255] and cast; green untouched. -/
def white_balance_stage (wb : ℚ × ℚ × ℚ) (im : Image) : Image :=
  if wb ≠ (1, 1, 1) then
    mapPx (fun p =>
      (toU8 (min 255 (max 0 ((p.1 : ℚ) * wb.2.2))),
       p.2.1,
       toU8 (min 255 (max 0 ((p.2.2 : ℚ) * wb.1))))) im
  else im

/-- Stages 3-6 (lines 181-198): convert to LAB, run CLAHE on the L
channel, apply the exposure gain with clip-and-cast when it is not 1,
merge with the untouched a/b channels and convert back to BGR. -/
def lab_stage (K : CVKernels) (clip : ℚ) (grid : ℕ × ℕ) (expo : ℚ) (im : Image) : Image :=
  let lab := mapPx K.bgr2lab im
  let lch := K.clahe clip grid (fun y x => (lab.px y x).1)
  let lch2 := if expo ≠ 1 then (fun y x => toU8 (min 255 (max 0 ((lch y x : ℚ) * expo)))) else lch
  ⟨lab.height, lab.width, fun y x => K.lab2bgr (lch2 y x, (lab.px y x).2.1, (lab.px y x).2.2)⟩

/-- `_apply_adaptive_tone_curve` (lines 259-273): per-frame histogram of
the grayscale image, normalised cumulative distribution, curve
`trunc(cdf·255)` applied through `cv2.LUT`. -/
def adaptive_tone_curve (K : CVKernels) (im : Image) : Image :=
  let gray := fun y x => K.bgr2gray (im.px y x)
  let hist := fun v : ℕ =>
    (((Finset.range im.height) ×ˢ (Finset.range im.width)).filter
      (fun yx => gray yx.1 yx.2 = v)).card
  let total := (((Finset.range 256).sum hist : ℕ) : ℚ)
  let curve := fun v : ℕ =>
    toU8 ((((Finset.range (v + 1)).sum hist : ℕ) : ℚ) / total * 255)
  cvLUT curve im

/-- Stage 7 (lines 200-205): dispatch on the tone-curve selector. -/
def tone_stage (K : CVKernels) (sc : ℕ → ℕ) (tc : ToneCurve) (im : Image) : Image :=
  match tc with
  | .s_curve => cvLUT sc im
  | .adaptive => adaptive_tone_curve K im
  | .linear => im

/-- Stage 8 (lines 207-212): if saturation is not 1, scale the HSV S
channel (computed in float, clipped, truncated back to `uint8`). -/
def saturation_stage (K : CVKernels) (sat : ℚ) (im : Image) : Image :=
  if sat ≠ 1 then
    mapPx (fun p =>
      let h := K.bgr2hsv p
      K.hsv2bgr (h.1, toU8 (min 255 (max 0 ((h.2.1 : ℚ) * sat))), h.2.2)) im
  else im

/-- Stage 9 / `_enhance_details` (lines 214-216, 252-257): unsharp mask
`addWeighted(img, 1+s, blurred, -s, 0)` when sharpening is positive. -/
def sharpen_stage (K : CVKernels) (s : ℚ) (im : Image) : Image :=
  if 0 < s then
    let g := K.gaussianBlur im.px
    ⟨im.height, im.width, fun y x =>
      (satU8 (((im.px y x).1 : ℚ) * (1 + s) - ((g y x).1 : ℚ) * s),
       satU8 (((im.px y x).2.1 : ℚ) * (1 + s) - ((g y x).2.1 : ℚ) * s),
       satU8 (((im.px y x).2.2 : ℚ) * (1 + s) - ((g y x).2.2 : ℚ) * s))⟩
  else im

/-- Stage 10 / `_adjust_highlights_shadows` (lines 218-220, 275-295):
normalise to [0,1], build complementary luminance masks, scale, clip and
cast back. -/
def hs_stage (K : CVKernels) (hi sh : ℚ) (im : Image) : Image :=
  if hi ≠ 0 ∨ sh ≠ 0 then
    mapPx (fun p =>
      let f : ℚ × ℚ × ℚ := ((p.1 : ℚ) / 255, (p.2.1 : ℚ) / 255, (p.2.2 : ℚ) / 255)
      let lum := K.grayF f
      let hmask := min 1 (max 0 ((lum - 1/2) * 2))
      let smask := min 1 (max 0 ((1/2 - lum) * 2))
      let f2 := if hi ≠ 0 then
          (f.1 * (1 + hi * hmask), f.2.1 * (1 + hi * hmask), f.2.2 * (1 + hi * hmask))
        else f
      let f3 := if sh ≠ 0 then
          (f2.1 * (1 + sh * smask), f2.2.1 * (1 + sh * smask), f2.2.2 * (1 + sh * smask))
        else f2
      (toU8 (min 255 (max 0 (f3.1 * 255))),
       toU8 (min 255 (max 0 (f3.2.1 * 255))),
       toU8 (min 255 (max 0 (f3.2.2 * 255))))) im
  else im

/-- Stage 11 (lines 222-229): `fastNlMeansDenoisingColored` when the
strength is positive. -/
def denoise_stage (K : CVKernels) (d : ℤ) (im : Image) : Image :=
  if 0 < d then ⟨im.height, im.width, K.denoise d im.px⟩ else im

/-- `HDRProcessor` instance state: current parameters, the four lookup
tables built by `_create_luts`, and the performance counters initialised
to 0 in `__init__` (lines 100-102). -/
structure HDRProcessor where
  params : HDRParameters
  gamma_decode : ℕ → ℕ
  gamma_encode : ℕ → ℕ
  s_curve_lut : ℕ → ℕ
  highlight_lut : ℕ → ℕ
  frame_count : ℕ
  total_time : ℚ

/-- The metrics dict returned by `process_frame` (lines 239-248). -/
structure Metrics where
  process_time_ms : ℚ
  avg_time_ms : ℚ
  exposure : ℚ
  contrast : ℚ
  saturation : ℚ
  sharpening : ℚ
deriving DecidableEq

/-- The counter updates of lines 236-237: `self.frame_count += 1;
self.total_time += process_time`. -/
def HDRProcessor.record (st : HDRProcessor) (d : ℚ) : HDRProcessor :=
  { st with frame_count := st.frame_count + 1, total_time := st.total_time + d }

/-- The running average `self.total_time / self.frame_count` of line 241.
In `ℚ` division by zero is 0, which is exactly the spec's convention for
`frameCount == 0`. -/
def HDRProcessor.average (st : HDRProcessor) : ℚ :=
  st.total_time / (st.frame_count : ℚ)

/-- `HDRProcessor.process_frame` (lines 151-250): telemetry update, the
twelve pipeline stages, counter update, metrics.  The wall-clock duration
of the call is an external input `dur`. -/
def process_frame (K : CVKernels) (st : HDRProcessor) (frame : Image)
    (tel : Option Telemetry) (dur : ℚ) : Image × HDRProcessor × Metrics :=
  let params :=
    match tel with
    | some t => st.params.interpolate_from_telemetry t
    | none => st.params
  let linear := cvLUT st.gamma_decode frame
  let linear2 := white_balance_stage params.white_balance linear
  let bgr1 := lab_stage K params.clahe_clip params.clahe_grid params.exposure linear2
  let bgr2 := tone_stage K st.s_curve_lut params.tone_curve bgr1
  let bgr3 := saturation_stage K params.saturation bgr2
  let bgr4 := sharpen_stage K params.sharpening bgr3
  let bgr5 := hs_stage K params.highlights params.shadows bgr4
  let bgr6 := denoise_stage K params.denoise_strength bgr5
  let final := cvLUT st.gamma_encode bgr6
  let st2 := { st with params := params,
                       frame_count := st.frame_count + 1,
                       total_time := st.total_time + dur }
  (final, st2,
    ⟨dur, st2.total_time / (st2.frame_count : ℚ),
     params.exposure, params.contrast, params.saturation, params.sharpening⟩)

lemma mapPx_height (f : Pix → Pix) (im : Image) : (mapPx f im).height = im.height := rfl

lemma mapPx_width (f : Pix → Pix) (im : Image) : (mapPx f im).width = im.width := rfl

lemma cvLUT_height (l : ℕ → ℕ) (im : Image) : (cvLUT l im).height = im.height := rfl

lemma cvLUT_width (l : ℕ → ℕ) (im : Image) : (cvLUT l im).width = im.width := rfl

lemma white_balance_stage_height (wb : ℚ × ℚ × ℚ) (im : Image) :
    (white_balance_stage wb im).height = im.height := by
  unfold white_balance_stage; split <;> rfl

lemma white_balance_stage_width (wb : ℚ × ℚ × ℚ) (im : Image) :
    (white_balance_stage wb im).width = im.width := by
  unfold white_balance_stage; split <;> rfl

lemma lab_stage_height (K : CVKernels) (c : ℚ) (g : ℕ × ℕ) (e : ℚ) (im : Image) :
    (lab_stage K c g e im).height = im.height := rfl

lemma lab_stage_width (K : CVKernels) (c : ℚ) (g : ℕ × ℕ) (e : ℚ) (im : Image) :
    (lab_stage K c g e im).width = im.width := rfl

lemma tone_stage_height (K : CVKernels) (sc : ℕ → ℕ) (tc : ToneCurve) (im : Image) :
    (tone_stage K sc tc im).height = im.height := by
  cases tc <;> rfl

lemma tone_stage_width (K : CVKernels) (sc : ℕ → ℕ) (tc : ToneCurve) (im : Image) :
    (tone_stage K sc tc im).width = im.width := by
  cases tc <;> rfl

lemma saturation_stage_height (K : CVKernels) (sat : ℚ) (im : Image) :
    (saturation_stage K sat im).height = im.height := by
  unfold saturation_stage; split <;> rfl

lemma saturation_stage_width (K : CVKernels) (sat : ℚ) (im : Image) :
    (saturation_stage K sat im).width = im.width := by
  unfold saturation_stage; split <;> rfl

lemma sharpen_stage_height (K : CVKernels) (s : ℚ) (im : Image) :
    (sharpen_stage K s im).height = im.height := by
  unfold sharpen_stage; split <;> rfl

lemma sharpen_stage_width (K : CVKernels) (s : ℚ) (im : Image) :
    (sharpen_stage K s im).width = im.width := by
  unfold sharpen_stage; split <;> rfl

lemma hs_stage_height (K : CVKernels) (hi sh : ℚ) (im : Image) :
    (hs_stage K hi sh im).height = im.height := by
  unfold hs_stage; split <;> rfl

lemma hs_stage_width (K : CVKernels) (hi sh : ℚ) (im : Image) :
    (hs_stage K hi sh im).width = im.width := by
  unfold hs_stage; split <;> rfl

lemma denoise_stage_height (K : CVKernels) (d : ℤ) (im : Image) :
    (denoise_stage K d im).height = im.height := by
  unfold denoise_stage; split <;> rfl

lemma denoise_stage_width (K : CVKernels) (d : ℤ) (im : Image) :
    (denoise_stage K d im).width = im.width := by
  unfold denoise_stage; split <;> rfl

lemma process_frame_height (K : CVKernels) (st : HDRProcessor) (frame : Image)
    (tel : Option Telemetry) (dur : ℚ) :
    (process_frame K st frame tel dur).1.height = frame.height := by
  simp only [process_frame, cvLUT_height, denoise_stage_height, hs_stage_height,
    sharpen_stage_height, saturation_stage_height, tone_stage_height, lab_stage_height,
    white_balance_stage_height]

lemma process_frame_width (K : CVKernels) (st : HDRProcessor) (frame : Image)
    (tel : Option Telemetry) (dur : ℚ) :
    (process_frame K st frame tel dur).1.width = frame.width := by
  simp only [process_frame, cvLUT_width, denoise_stage_width, hs_stage_width,
    sharpen_stage_width, saturation_stage_width, tone_stage_width, lab_stage_width,
    white_balance_stage_width]

/-- A sequence of processed frames seen only through the counter updates:
fold `record` over the list of per-frame durations. -/
def runRecords (st : HDRProcessor) (ds : List ℚ) : HDRProcessor :=
  ds.foldl HDRProcessor.record st

lemma runRecords_counts (ds : List ℚ) (st : HDRProcessor) :
    (runRecords st ds).frame_count = st.frame_count + ds.length
    ∧ (runRecords st ds).total_time = st.total_time + ds.sum := by
  induction ds generalizing st with
  | nil => simp [runRecords]
  | cons d ds ih =>
      have h := ih (st.record d)
      refine ⟨?_, ?_⟩
      · rw [show runRecords st (d :: ds) = runRecords (st.record d) ds from rfl, h.1]
        simp [HDRProcessor.record]
        omega
      · rw [show runRecords st (d :: ds) = runRecords (st.record d) ds from rfl, h.2]
        simp [HDRProcessor.record]
        ring

/-- C7.  Each `process_frame` call increments `frame_count` by exactly one
and adds its duration to `total_time`, and reports
`total_time / frame_count` in the metrics; starting from a fresh
processor (`frame_count = 0`, `total_time = 0`), after recording `N`
durations the running average equals their sum divided by `N` exactly
(for `N = 0` the quotient `0/0` is `0`, the spec's convention). -/
theorem metrics_running_average_exact (K : CVKernels) (st0 st : HDRProcessor)
    (frame : Image) (tel : Option Telemetry) (dur : ℚ) (ds : List ℚ) :
    ((process_frame K st frame tel dur).2.1.frame_count = st.frame_count + 1
      ∧ (process_frame K st frame tel dur).2.1.total_time = st.total_time + dur
      ∧ (process_frame K st frame tel dur).2.2.avg_time_ms
          = (st.total_time + dur) / ((st.frame_count : ℚ) + 1))
    ∧ (st0.frame_count = 0 → st0.total_time = 0 →
        (runRecords st0 ds).average = ds.sum / (ds.length : ℚ))
    ∧ (st0.frame_count = 0 → st0.average = 0) := by
  refine ⟨⟨rfl, rfl, ?_⟩, ?_, ?_⟩
  · show (st.total_time + dur) / ((st.frame_count + 1 : ℕ) : ℚ) = _
    push_cast
    rfl
  · intro h1 h2
    have h := runRecords_counts ds st0
    unfold HDRProcessor.average
    rw [h.1, h.2, h1, h2]
    simp
  · intro h1
    unfold HDRProcessor.average
    rw [h1]
    simp

/-- A concrete processor state for witnesses (parameter defaults, trivial
lookup tables, fresh counters). -/
def demoProcessor : HDRProcessor :=
  ⟨HDRParameters.default, id, id, id, fun _ => 0, 0, 0⟩

/-- A second witness state, identical except for the highlight table. -/
def demoProcessor2 : HDRProcessor :=
  { demoProcessor with highlight_lut := fun _ => 1 }

/-- Trivial concrete instantiations of the opaque OpenCV kernels. -/
def idKernels : CVKernels :=
  ⟨id, id, id, id, fun _ => 0, fun _ => 0, fun _ _ c => c, id, fun _ p => p⟩

/-- A concrete 1×1 frame. -/
def demoFrame : Image := ⟨1, 1, fun _ _ => (7, 7, 7)⟩

/-- A zero-sized frame (structurally malformed input). -/
def zeroFrame : Image := ⟨0, 0, fun _ _ => (0, 0, 0)⟩

theorem metrics_running_average_exact_witness :
    demoProcessor.frame_count = 0 ∧ demoProcessor.total_time = 0
    ∧ (runRecords demoProcessor [3, 5]).average
        = (([3, 5] : List ℚ).sum) / ((([3, 5] : List ℚ).length : ℕ) : ℚ)
    ∧ demoProcessor.average = 0 := by
  have h := metrics_running_average_exact idKernels demoProcessor demoProcessor
    demoFrame none 0 [3, 5]
  exact ⟨rfl, rfl, h.2.1 rfl rfl, h.2.2 rfl⟩

/-- C8.  For every input frame and every telemetry snapshot (and any
kernel behaviour and processor state), `process_frame` returns an output
buffer with the same height, width and (by the fixed `Pix` type)
3-channel BGR format as the input; the embedding is a pure function of
the input frame, which the source never writes to — every stage allocates
a fresh buffer. -/
theorem process_frame_preserves_dimensions (K : CVKernels) (st : HDRProcessor)
    (frame : Image) (tel : Option Telemetry) (dur : ℚ) :
    (process_frame K st frame tel dur).1.height = frame.height
    ∧ (process_frame K st frame tel dur).1.width = frame.width :=
  ⟨process_frame_height K st frame tel dur, process_frame_width K st frame tel dur⟩

/-- Error conditions a `process_frame` call can end in.  `cv2_error` is
the OpenCV library assertion failure that malformed buffers actually
produce; `invalidFrameFormat` is the condition the specification names,
which no code in the repository ever raises — `process_frame` (lines
151-250) contains no validation and the identifier appears nowhere. -/
inductive FrameError where
  | cv2_error
  | invalidFrameFormat
deriving DecidableEq

/-- Modelled from the spec: the OpenCV collaborator boundary, which is
outside this repository's code.  `cv2.cvtColor` rejects an empty input
buffer with a `cv2.error` assertion failure (`!_src.empty()`), so a
zero-sized frame makes the call raise at stage 3 (hdr_processor.py line
182) before any counter update; the preceding `cv2.LUT` and
white-balance steps preserve (non-)emptiness, so the check is
equivalently performed on entry.  On a non-empty frame every stage keeps
the dimensions nonzero (dimension lemmas above), no later library call
sees an empty buffer, and the call completes as in the total model
`process_frame`. -/
def process_frameE (K : CVKernels) (st : HDRProcessor) (frame : Image)
    (tel : Option Telemetry) (dur : ℚ) :
    Except FrameError (Image × HDRProcessor × Metrics) :=
  if frame.height = 0 ∨ frame.width = 0 then Except.error FrameError.cv2_error
  else Except.ok (process_frame K st frame tel dur)

/-- C9, counterexample.  At a zero-sized input the call does fail and
returns no frame — but with the OpenCV library condition `cv2.error`
raised inside `cvtColor`, not with the claimed `InvalidFrameFormat`:
the processor performs no validation of its own and no such condition
exists in the code. -/
theorem process_frame_zero_sized_raises_cv2_error :
    process_frameE idKernels demoProcessor zeroFrame none 0
      = Except.error FrameError.cv2_error
    ∧ process_frameE idKernels demoProcessor zeroFrame none 0
      ≠ Except.error FrameError.invalidFrameFormat := by
  constructor
  · simp [process_frameE, zeroFrame]
  · simp [process_frameE, zeroFrame]

/-- C9, amended.  For every zero-sized input buffer (and any kernels,
state and snapshot) the call fails inside the first OpenCV conversion
with the library condition `cv2.error` — not with `InvalidFrameFormat`,
which nothing in the code defines or raises — and no processed frame or
state update is produced; every non-empty frame is processed normally.
(Wrong channel counts are unrepresentable here: the 3-channel BGR format
is fixed by the `Pix` type.) -/
theorem process_frame_fails_with_library_error (K : CVKernels) (st : HDRProcessor)
    (f : ℕ → ℕ → Pix) (tel : Option Telemetry) (dur : ℚ) :
    process_frameE K st ⟨0, 0, f⟩ tel dur = Except.error FrameError.cv2_error
    ∧ process_frameE K st ⟨0, 0, f⟩ tel dur ≠ Except.error FrameError.invalidFrameFormat
    ∧ ∀ frame : Image, frame.height ≠ 0 → frame.width ≠ 0 →
        process_frameE K st frame tel dur
          = Except.ok (process_frame K st frame tel dur) := by
  refine ⟨by simp [process_frameE], by simp [process_frameE], fun frame h1 h2 => ?_⟩
  simp [process_frameE, h1, h2]

theorem process_frame_fails_with_library_error_witness :
    demoFrame.height ≠ 0 ∧ demoFrame.width ≠ 0
    ∧ process_frameE idKernels demoProcessor demoFrame none 0
        = Except.ok (process_frame idKernels demoProcessor demoFrame none 0) := by
  have h := process_frame_fails_with_library_error idKernels demoProcessor
    (fun _ _ => (0, 0, 0)) none 0
  exact ⟨by simp [demoFrame], by simp [demoFrame],
    h.2.2 demoFrame (by simp [demoFrame]) (by simp [demoFrame])⟩

/-- C10.  `process_frame` never reads `highlight_lut`: two processor
states identical except for the contents of the highlight table produce
an identical output frame, identical metrics, and identical parameter
and counter state, on every input and with every kernel behaviour. -/
theorem process_frame_independent_of_highlight_lut (K : CVKernels)
    (st1 st2 : HDRProcessor) (frame : Image) (tel : Option Telemetry) (dur : ℚ)
    (hp : st1.params = st2.params) (hgd : st1.gamma_decode = st2.gamma_decode)
    (hge : st1.gamma_encode = st2.gamma_encode) (hsc : st1.s_curve_lut = st2.s_curve_lut)
    (hfc : st1.frame_count = st2.frame_count) (htt : st1.total_time = st2.total_time) :
    (process_frame K st1 frame tel dur).1 = (process_frame K st2 frame tel dur).1
    ∧ (process_frame K st1 frame tel dur).2.2 = (process_frame K st2 frame tel dur).2.2
    ∧ (process_frame K st1 frame tel dur).2.1.params
        = (process_frame K st2 frame tel dur).2.1.params
    ∧ (process_frame K st1 frame tel dur).2.1.frame_count
        = (process_frame K st2 frame tel dur).2.1.frame_count
    ∧ (process_frame K st1 frame tel dur).2.1.total_time
        = (process_frame K st2 frame tel dur).2.1.total_time := by
  cases st1
  cases st2
  dsimp only at hp hgd hge hsc hfc htt
  subst hp hgd hge hsc hfc htt
  exact ⟨rfl, rfl, rfl, rfl, rfl⟩

theorem process_frame_independent_of_highlight_lut_witness :
    demoProcessor.params = demoProcessor2.params
    ∧ demoProcessor.gamma_decode = demoProcessor2.gamma_decode
    ∧ demoProcessor.gamma_encode = demoProcessor2.gamma_encode
    ∧ demoProcessor.s_curve_lut = demoProcessor2.s_curve_lut
    ∧ demoProcessor.frame_count = demoProcessor2.frame_count
    ∧ demoProcessor.total_time = demoProcessor2.total_time
    ∧ (process_frame idKernels demoProcessor demoFrame none 0).1
        = (process_frame idKernels demoProcessor2 demoFrame none 0).1
    ∧ (process_frame idKernels demoProcessor demoFrame none 0).2.2
        = (process_frame idKernels demoProcessor2 demoFrame none 0).2.2 := by
  have h := process_frame_independent_of_highlight_lut idKernels demoProcessor
    demoProcessor2 demoFrame none 0 rfl rfl rfl rfl rfl rfl
  exact ⟨rfl, rfl, rfl, rfl, rfl, rfl, h.1, h.2.1⟩
